import Mathlib

/-!
Verification of the `dsu_protocol` message codec (src/lib.rs, src/types.rs,
src/error.rs) against its natural-language specification.

Buffers (`&[u8]`, `&mut [u8]`, `[u8; N]`) are modelled as `List Nat`, every
element a byte value `< 256`.  Machine integers are `Nat` (with `% 2 ^ w`
where the source converts or wraps) and `Int` for `i32`.  Rust's `Hasher`
argument is modelled by the function `HasherF` from the concatenation of all
written byte slices to the `finish()` value: any deterministic Rust hasher is
captured this way because its state is a function of the byte stream written
to it.  A Rust panic (out-of-range slice index, failed `unwrap`,
`copy_from_slice` length mismatch) is an explicit `panic` outcome of the
result types below.
-/

/-- Result of a fallible operation that can also panic: models Rust
`Result<A, E>` evaluated under panic semantics. -/
inductive Res (ε : Type) (α : Type) where
  | ok (a : α)
  | err (e : ε)
  | panic
  deriving DecidableEq, Repr

/-- Result of an infallible operation that can panic. -/
inductive PRes (α : Type) where
  | ok (a : α)
  | panic
  deriving DecidableEq, Repr

/-- Rust slice indexing `buf[a..b]`: the elements at positions `[a, b)`. -/
def listSlice (buf : List Nat) (a b : Nat) : List Nat :=
  (buf.take b).drop a

/-- The byte at index `i` (buffers are always indexed in bounds where this
is used; `getD` keeps the function total). -/
def byteAt (buf : List Nat) (i : Nat) : Nat :=
  buf.getD i 0

/-- In-place write of `bs` starting at `pos`: models
`buf[pos..pos+bs.len()].copy_from_slice(bs)` at a statically in-bounds range. -/
def writeBytes (buf : List Nat) (pos : Nat) (bs : List Nat) : List Nat :=
  buf.take pos ++ bs ++ buf.drop (pos + bs.length)

/-- Checked in-place write modelling `buf[a..b].copy_from_slice(bs)` with
Rust panic semantics: the slice index panics unless `a ≤ b ≤ buf.len()`,
and `copy_from_slice` panics unless `bs.len() = b - a`. -/
def writeRange (buf : List Nat) (a b : Nat) (bs : List Nat) : PRes (List Nat) :=
  if a ≤ b ∧ b ≤ buf.length then
    if bs.length = b - a then .ok (writeBytes buf a bs) else .panic
  else .panic

/-- Checked read modelling `u8::from_le_bytes(buf[a..b].try_into().unwrap())`:
the slice index panics unless `a ≤ b ≤ buf.len()`, and the conversion to
`[u8; 1]` (hence the `unwrap`) panics unless the range is one byte wide. -/
def readU8 (buf : List Nat) (a b : Nat) : PRes Nat :=
  if a ≤ b ∧ b ≤ buf.length then
    if b - a = 1 then .ok (byteAt buf a) else .panic
  else .panic

/-- Little-endian decode of 2 bytes (`u16::from_le_bytes`). -/
def le16 (bs : List Nat) : Nat :=
  byteAt bs 0 + 2 ^ 8 * byteAt bs 1

/-- Little-endian decode of 4 bytes (`u32::from_le_bytes`). -/
def le32 (bs : List Nat) : Nat :=
  byteAt bs 0 + 2 ^ 8 * byteAt bs 1 + 2 ^ 16 * byteAt bs 2 + 2 ^ 24 * byteAt bs 3

/-- Little-endian encode of a `u16` (`u16::to_le_bytes`). -/
def le16bytes (v : Nat) : List Nat :=
  [v % 2 ^ 8, v / 2 ^ 8 % 2 ^ 8]

/-- Little-endian encode of a `u32` (`u32::to_le_bytes`). -/
def le32bytes (v : Nat) : List Nat :=
  [v % 2 ^ 8, v / 2 ^ 8 % 2 ^ 8, v / 2 ^ 16 % 2 ^ 8, v / 2 ^ 24 % 2 ^ 8]

/-- Reinterpret the low 32 bits of a `Nat` as a signed `i32`
(two's complement), as `i32::from_le_bytes` / `as i32` do. -/
def i32ofBits (n : Nat) : Int :=
  if n % 2 ^ 32 < 2 ^ 31 then ((n % 2 ^ 32 : Nat) : Int)
  else ((n % 2 ^ 32 : Nat) : Int) - 2 ^ 32

/-- A caller-supplied `Hasher`, represented by the map from the concatenation
of all bytes written into it to its `finish()` value. -/
def HasherF : Type := List Nat → Nat

/-- The deterministic stub hasher that returns 0 for every stream; used to
build concrete test vectors. -/
def zeroHasher : HasherF := fun _ => 0

-- Wire constants, src/lib.rs lines 10-15.
def MAGIC_CLIENT : Nat := 0x43555344
def MAGIC_SERVER : Nat := 0x53555344
def MESSAGE_PROTOCOL : Nat := 0x100000
def MESSAGE_INFO : Nat := 0x100001
def MESSAGE_DATA : Nat := 0x100002

-- Closed enumerations, src/types.rs.
inductive Magic where
  | Server | Client
  deriving DecidableEq, Repr

inductive Protocol where
  | Version1001
  deriving DecidableEq, Repr

inductive MessageType where
  | ProtocolVersionInfo | ControllerInfo | ControllerData
  deriving DecidableEq, Repr

inductive State where
  | Disconnected | Reserved | Connected
  deriving DecidableEq, Repr

inductive Model where
  | NotApplicable | PartialGyro | FullGyro | Unused
  deriving DecidableEq, Repr

inductive ConnectionType where
  | NotApplicable | Usb | Bluetooth
  deriving DecidableEq, Repr

inductive BatteryStatus where
  | NotApplicable | Dying | Low | Medium | High | Full | Charging | Charged
  deriving DecidableEq, Repr

inductive Registration where
  | AllControllers | SlotBased | MacBased
  deriving DecidableEq, Repr

/-- Modelled from the spec: lib.rs uses a tuple struct `Invalid(raw, name)`
("a validation failure carrying the offending raw value and field name",
§3/§7) whose declaration is not among the given source files. -/
structure Invalid where
  val : Nat
  fieldName : String
  deriving DecidableEq, Repr

/-- Modelled from the spec: lib.rs returns `MessageParseError` values with
the variants used at its call sites (§4.5 and §7: size error, bad magic,
bad message type, checksum mismatch carrying expected and calculated); the
enum's own declaration is not among the given source files. -/
inductive MessageParseError where
  | SliceTooSmall
  | InvalidMagic (raw : Nat)
  | InvalidMessageId (raw : Nat)
  | InvalidCrc32 (expected : Nat) (calculated : Nat)
  deriving DecidableEq, Repr

/-- Modelled from the spec: lib.rs returns `RequestControllerInfoError`
values with the variants used at its call sites (§4.4 and §7: size error and
`InvalidSlotsLength` echoing the invalid signed count); the enum's own
declaration is not among the given source files. -/
inductive RCIError where
  | SliceTooSmall
  | InvalidSlotsLength (n : Int)
  deriving DecidableEq, Repr

-- Raw wire codes of the enumerations written by the setters
-- (enum_fields! reverse direction).
def Magic.raw : Magic → Nat
  | .Client => MAGIC_CLIENT
  | .Server => MAGIC_SERVER

def MessageType.raw : MessageType → Nat
  | .ProtocolVersionInfo => MESSAGE_PROTOCOL
  | .ControllerInfo => MESSAGE_INFO
  | .ControllerData => MESSAGE_DATA

def Protocol.raw : Protocol → Nat
  | .Version1001 => 1001

/-!
Header, src/lib.rs lines 241-281: a 20-byte view.  `int_fields!` gives
`packet_length : u16 = 6..8`, `crc32 : u32 = 8..12`, `sender_id : u32 =
12..16`; `enum_fields!` gives `magic : u32[0..4]`, `message_type :
u32[16..20]`, `protocol : u16[4..6]`.  All ranges lie inside the fixed
20-byte buffer and each range's width equals the integer's width, so the
`try_into().unwrap()` in the macro-generated accessors cannot fail and the
getters and setters are modelled as total functions on the view's bytes.
The generated getter for an enum field is a sequence of guarded match arms
`val if val == RAW => Ok(V)` falling through to `Err(Invalid(val, name))`,
i.e. an if-chain in source order.
-/

def Header.packet_length (buf : List Nat) : Nat :=
  le16 (listSlice buf 6 8)

def Header.crc32 (buf : List Nat) : Nat :=
  le32 (listSlice buf 8 12)

def Header.sender_id (buf : List Nat) : Nat :=
  le32 (listSlice buf 12 16)

def Header.magic (buf : List Nat) : Except Invalid Magic :=
  let v := le32 (listSlice buf 0 4)
  if v = MAGIC_CLIENT then .ok .Client
  else if v = MAGIC_SERVER then .ok .Server
  else .error ⟨v, "magic"⟩

def Header.message_type (buf : List Nat) : Except Invalid MessageType :=
  let v := le32 (listSlice buf 16 20)
  if v = MESSAGE_PROTOCOL then .ok .ProtocolVersionInfo
  else if v = MESSAGE_INFO then .ok .ControllerInfo
  else if v = MESSAGE_DATA then .ok .ControllerData
  else .error ⟨v, "message_type"⟩

def Header.protocol (buf : List Nat) : Except Invalid Protocol :=
  let v := le16 (listSlice buf 4 6)
  if v = 1001 then .ok .Version1001
  else .error ⟨v, "protocol"⟩

def Header.set_magic (buf : List Nat) (m : Magic) : List Nat :=
  writeBytes buf 0 (le32bytes m.raw)

def Header.set_protocol (buf : List Nat) (p : Protocol) : List Nat :=
  writeBytes buf 4 (le16bytes p.raw)

def Header.set_packet_length (buf : List Nat) (v : Nat) : List Nat :=
  writeBytes buf 6 (le16bytes v)

def Header.set_crc32 (buf : List Nat) (v : Nat) : List Nat :=
  writeBytes buf 8 (le32bytes v)

def Header.set_sender_id (buf : List Nat) (v : Nat) : List Nat :=
  writeBytes buf 12 (le32bytes v)

def Header.set_message_type (buf : List Nat) (t : MessageType) : List Nat :=
  writeBytes buf 16 (le32bytes t.raw)

/-- `Header::<Mut>::initialize`, src/lib.rs lines 264-281: the six setters
in source order.  The header sub-view of a message starts at byte 0, so the
writes land at the same absolute offsets in the parent buffer. -/
def Header.init (buf : List Nat) (m : Magic) (p : Protocol)
    (length : Nat) (crc : Nat) (sender : Nat) (t : MessageType) : List Nat :=
  Header.set_message_type
    (Header.set_sender_id
      (Header.set_crc32
        (Header.set_packet_length
          (Header.set_protocol (Header.set_magic buf m) p) length) crc) sender) t

/-!
Fixed-size messages: the `buf_type!(message ...)` macro, src/lib.rs lines
44-51, gives every fixed-size message the same `update_crc`: it feeds the
hasher bytes `[0..8)`, four zero bytes, then bytes `[12..]`, and writes
`finish() as u32` into the header's crc32 field (absolute bytes `[8..12)`).
All five fixed message sizes (20, 22, 32, 28, 100) are at least 12.
-/

/-- `update_crc` of the fixed-size message macro (src/lib.rs lines 45-50). -/
def update_crc (h : HasherF) (buf : List Nat) : List Nat :=
  Header.set_crc32 buf (h (buf.take 8 ++ [0, 0, 0, 0] ++ buf.drop 12) % 2 ^ 32)

/-!
`RequestControllerInfo` (dynamic message over a 28-byte maximal buffer),
src/lib.rs lines 402-526.  The `Ref`/`Mut` views hold an unsized slice, so
every accessor length-checks explicitly — except `bytes()`, which slices
`&self.buf[..28]` unconditionally and hence panics on a shorter backing
slice.
-/

/-- `RequestControllerInfo::num_slots`, src/lib.rs lines 421-430 / 496-505. -/
def RCI.num_slots (buf : List Nat) : Res RCIError Nat :=
  if buf.length < 20 + 4 then .err .SliceTooSmall
  else
    let port := i32ofBits (le32 (listSlice buf 20 24))
    if port < 0 ∨ 4 < port then .err (.InvalidSlotsLength port)
    else .ok port.toNat

/-- `RequestControllerInfo::slots`, src/lib.rs lines 413-419 / 474-480:
`Ok(&self.buf[24..][..port])`. -/
def RCI.slots (buf : List Nat) : Res RCIError (List Nat) :=
  match RCI.num_slots buf with
  | .err e => .err e
  | .panic => .panic
  | .ok port =>
    if buf.length < 20 + 4 + port then .err .SliceTooSmall
    else .ok (listSlice buf 24 (24 + port))

/-- `RequestControllerInfo::<Mut>::set_slots`, src/lib.rs lines 482-494:
writes `slots.len() as i32` little-endian at `[20..24)` and the slot bytes at
`[24..24+len)`; both writes are in bounds after the explicit length checks. -/
def RCI.set_slots (buf : List Nat) (slots : List Nat) : Res RCIError (List Nat) :=
  if slots.length < 1 ∨ 4 < slots.length then
    .err (.InvalidSlotsLength (i32ofBits slots.length))
  else if buf.length < 20 + 4 + slots.length then .err .SliceTooSmall
  else .ok (writeBytes (writeBytes buf 20 (le32bytes slots.length)) 24 slots)

/-- `RequestControllerInfo::<Mut>::update_crc`, src/lib.rs lines 462-472:
feeds bytes `[0..8)`, four zeros, then `self.buf[12..(24 + len)]` with `len`
re-read from the buffer via `num_slots`.  The final slice index panics when
`24 + len` exceeds the backing slice's length. -/
def RCI.update_crc (h : HasherF) (buf : List Nat) : Res RCIError (List Nat) :=
  match RCI.num_slots buf with
  | .err e => .err e
  | .panic => .panic
  | .ok len =>
    if 24 + len ≤ buf.length then
      .ok (Header.set_crc32 buf
        (h (buf.take 8 ++ [0, 0, 0, 0] ++ listSlice buf 12 (24 + len)) % 2 ^ 32))
    else .panic

/-- `RequestControllerInfo::<Mut>::initialize`, src/lib.rs lines 442-460:
note that `len` is `self.num_slots()? as u16` — read from the buffer's
pre-existing stored count *before* `set_slots` writes the new one — and that
the header is written with `24 + len - 16` as packet length and (as in the
source) `MessageType::ProtocolVersionInfo` as message type.  `header_mut()`
slices `self.buf[0..20]`, in bounds because `num_slots` checked
`buf.len() ≥ 24`.  `24 + len - 16` is `u16` arithmetic but cannot wrap since
`len ≤ 4`. -/
def RCI.init (buf : List Nat) (sender : Nat) (slots : List Nat)
    (h : HasherF) : Res RCIError (List Nat) :=
  match RCI.num_slots buf with
  | .err e => .err e
  | .panic => .panic
  | .ok len =>
    let buf1 := Header.init buf .Client .Version1001 (24 + len - 16) 0
      sender .ProtocolVersionInfo
    match RCI.set_slots buf1 slots with
    | .err e => .err e
    | .panic => .panic
    | .ok buf2 => RCI.update_crc h buf2

/-- `RequestProtocolVersionInfo::<Mut>::initialize`, src/lib.rs lines
290-301: header with client magic, protocol 1001, length `20 - 16`, crc 0,
then `update_crc`. -/
def RequestProtocolVersionInfo.init (buf : List Nat) (sender : Nat)
    (h : HasherF) : List Nat :=
  update_crc h
    (Header.init buf .Client .Version1001 (20 - 16) 0 sender
      .ProtocolVersionInfo)

/-- `ProtocolVersionInfo`'s own protocol field, src/lib.rs lines 311-315:
`enum_fields!` declares it `from u16[(20 + 0)..2]`, i.e. over the slice
`self.buf[20..2]`, whose start exceeds its end — both the getter's index and
the setter's `copy_from_slice` panic. -/
def ProtocolVersionInfo.set_protocol (buf : List Nat) (p : Protocol) :
    PRes (List Nat) :=
  writeRange buf (20 + 0) 2 (le16bytes p.raw)

/-- `ProtocolVersionInfo::<Mut>::initialize`, src/lib.rs lines 317-330:
header (server magic, length `22 - 16`), then `set_protocol`, then
`update_crc`. -/
def ProtocolVersionInfo.init (buf : List Nat) (sender : Nat)
    (p : Protocol) (h : HasherF) : PRes (List Nat) :=
  let buf1 := Header.init buf .Server p (22 - 16) 0 sender
    .ProtocolVersionInfo
  match ProtocolVersionInfo.set_protocol buf1 p with
  | .panic => .panic
  | .ok buf2 => .ok (update_crc h buf2)

/-!
`Touch` (6-byte view), src/lib.rs lines 768-774: `int_fields!` declares
`touch_id : u8 = 1..2`, `touch_x : u8 = 2..4`, `touch_y : u8 = 4..6`.  The
`touch_x`/`touch_y` ranges are two bytes wide while the declared integer is
one byte, so the generated `try_into().unwrap()` (getter) and
`copy_from_slice` (setter) panic.
-/

def Touch.touch_id (buf : List Nat) : PRes Nat :=
  readU8 buf 1 2

def Touch.touch_x (buf : List Nat) : PRes Nat :=
  readU8 buf 2 4

def Touch.touch_y (buf : List Nat) : PRes Nat :=
  readU8 buf 4 6

def Touch.set_touch_x (buf : List Nat) (v : Nat) : PRes (List Nat) :=
  writeRange buf 2 4 [v % 2 ^ 8]

def Touch.set_touch_y (buf : List Nat) (v : Nat) : PRes (List Nat) :=
  writeRange buf 4 6 [v % 2 ^ 8]

/-!
`ControllerHeader` (11-byte view), src/lib.rs lines 334-367: `slot : u8 =
0..1` plus four enumerated byte fields.  All ranges are one byte wide and in
bounds of the fixed 11-byte buffer.
-/

def ControllerHeader.slot (buf : List Nat) : Nat :=
  byteAt buf 0

def ControllerHeader.state (buf : List Nat) : Except Invalid State :=
  let v := byteAt buf 1
  if v = 0 then .ok .Disconnected
  else if v = 1 then .ok .Reserved
  else if v = 2 then .ok .Connected
  else .error ⟨v, "state"⟩

def ControllerHeader.model (buf : List Nat) : Except Invalid Model :=
  let v := byteAt buf 2
  if v = 0 then .ok .NotApplicable
  else if v = 1 then .ok .PartialGyro
  else if v = 2 then .ok .FullGyro
  else if v = 3 then .ok .Unused
  else .error ⟨v, "model"⟩

def ControllerHeader.connection_type (buf : List Nat) :
    Except Invalid ConnectionType :=
  let v := byteAt buf 3
  if v = 0 then .ok .NotApplicable
  else if v = 1 then .ok .Usb
  else if v = 2 then .ok .Bluetooth
  else .error ⟨v, "connection_type"⟩

def ControllerHeader.battery_status (buf : List Nat) :
    Except Invalid BatteryStatus :=
  let v := byteAt buf 10
  if v = 0x00 then .ok .NotApplicable
  else if v = 0x01 then .ok .Dying
  else if v = 0x02 then .ok .Low
  else if v = 0x03 then .ok .Medium
  else if v = 0x04 then .ok .High
  else if v = 0x05 then .ok .Full
  else if v = 0xEE then .ok .Charging
  else if v = 0xEF then .ok .Charged
  else .error ⟨v, "battery_status"⟩

/-- `RequestControllerData`'s `registration` field, src/lib.rs lines
588-594: `u8[20..21]` of the 28-byte message. -/
def RequestControllerData.registration (buf : List Nat) :
    Except Invalid Registration :=
  let v := byteAt buf 20
  if v = 0 then .ok .AllControllers
  else if v = 1 then .ok .SlotBased
  else if v = 2 then .ok .MacBased
  else .error ⟨v, "registration"⟩

/-!
`MessageRef::parse`, src/lib.rs lines 802-871, and `MessageMut::parse_mut`,
lines 895-967 (byte-for-byte the same logic on a mutable slice).

Step one builds the header view from `buf[0..20].try_into()`: the *slice
index* `buf[0..20]` panics when `buf.len() < 20` — the `map_err(...
SliceTooSmall)` guards only the (then infallible) array conversion.  Then
`magic` and `message_type` are validated in that order.  Dispatch converts
`buf` into the selected fixed-size array — `try_into` on a whole slice
succeeds exactly when the lengths are equal, else `SliceTooSmall` — except
for `RequestControllerInfo`, whose view keeps the unsized slice.  The
subsequent `bytes()` of that view slices `&self.buf[..28]`, panicking when
`buf.len() < 28`.  Finally the checksum is recomputed over `bytes()[0..8)`,
four zero bytes and `bytes()[12..]`, and compared with the stored header
crc32.
-/

/-- Which of the six typed views `parse` selects. -/
inductive MessageKind where
  | requestProtocolVersionInfo
  | protocolVersionInfo
  | requestControllerInfo
  | controllerInfo
  | requestControllerData
  | controllerData
  deriving DecidableEq, Repr

/-- Header validation and dispatch of `MessageRef::parse` (src/lib.rs lines
802-857) up to and including the `bytes()` extraction: yields the selected
kind together with the message bytes the checksum is computed over. -/
def parsePre (buf : List Nat) : Res MessageParseError (MessageKind × List Nat) :=
  if buf.length < 20 then .panic
  else
    match Header.magic (listSlice buf 0 20) with
    | .error i => .err (.InvalidMagic i.val)
    | .ok mg =>
      match Header.message_type (listSlice buf 0 20) with
      | .error i => .err (.InvalidMessageId i.val)
      | .ok ty =>
        match mg, ty with
        | .Client, .ProtocolVersionInfo =>
          if buf.length = 20 then .ok (.requestProtocolVersionInfo, buf)
          else .err .SliceTooSmall
        | .Server, .ProtocolVersionInfo =>
          if buf.length = 22 then .ok (.protocolVersionInfo, buf)
          else .err .SliceTooSmall
        | .Client, .ControllerInfo =>
          if buf.length < 28 then .panic
          else .ok (.requestControllerInfo, buf.take 28)
        | .Server, .ControllerInfo =>
          if buf.length = 32 then .ok (.controllerInfo, buf)
          else .err .SliceTooSmall
        | .Client, .ControllerData =>
          if buf.length = 28 then .ok (.requestControllerData, buf)
          else .err .SliceTooSmall
        | .Server, .ControllerData =>
          if buf.length = 100 then .ok (.controllerData, buf)
          else .err .SliceTooSmall

/-- `MessageRef::parse`, src/lib.rs lines 802-871: dispatch, then checksum
verification against `this.header().crc32()`. -/
def parseR (buf : List Nat) (h : HasherF) : Res MessageParseError MessageKind :=
  match parsePre buf with
  | .panic => .panic
  | .err e => .err e
  | .ok (k, mb) =>
    let calc_hash := h (mb.take 8 ++ [0, 0, 0, 0] ++ mb.drop 12) % 2 ^ 32
    let hash := Header.crc32 (listSlice buf 0 20)
    if hash ≠ calc_hash then .err (.InvalidCrc32 hash calc_hash)
    else .ok k

/-- `MessageMut::parse_mut`, src/lib.rs lines 895-967, with the mutable
buffer threaded explicitly: every step of the source is a read (header
getters, `bytes()`, `crc32()`), so each branch returns the buffer it was
given.  The second component is the state of the borrowed buffer when the
call returns. -/
def parseMut (buf : List Nat) (h : HasherF) :
    Res MessageParseError MessageKind × List Nat :=
  if buf.length < 20 then (.panic, buf)
  else
    match Header.magic (listSlice buf 0 20) with
    | .error i => (.err (.InvalidMagic i.val), buf)
    | .ok mg =>
      match Header.message_type (listSlice buf 0 20) with
      | .error i => (.err (.InvalidMessageId i.val), buf)
      | .ok ty =>
        let dispatched : Res MessageParseError (MessageKind × List Nat) :=
          match mg, ty with
          | .Client, .ProtocolVersionInfo =>
            if buf.length = 20 then .ok (.requestProtocolVersionInfo, buf)
            else .err .SliceTooSmall
          | .Server, .ProtocolVersionInfo =>
            if buf.length = 22 then .ok (.protocolVersionInfo, buf)
            else .err .SliceTooSmall
          | .Client, .ControllerInfo =>
            if buf.length < 28 then .panic
            else .ok (.requestControllerInfo, buf.take 28)
          | .Server, .ControllerInfo =>
            if buf.length = 32 then .ok (.controllerInfo, buf)
            else .err .SliceTooSmall
          | .Client, .ControllerData =>
            if buf.length = 28 then .ok (.requestControllerData, buf)
            else .err .SliceTooSmall
          | .Server, .ControllerData =>
            if buf.length = 100 then .ok (.controllerData, buf)
            else .err .SliceTooSmall
        match dispatched with
        | .panic => (.panic, buf)
        | .err e => (.err e, buf)
        | .ok (k, mb) =>
          let calc_hash := h (mb.take 8 ++ [0, 0, 0, 0] ++ mb.drop 12) % 2 ^ 32
          let hash := Header.crc32 (listSlice buf 0 20)
          if hash ≠ calc_hash then (.err (.InvalidCrc32 hash calc_hash), buf)
          else (.ok k, buf)

/-!
Helper lemmas about the buffer primitives.
-/

theorem writeBytes_length (buf bs : List Nat) (pos : Nat)
    (h : pos + bs.length ≤ buf.length) :
    (writeBytes buf pos bs).length = buf.length := by
  simp [writeBytes]
  omega

theorem take_writeBytes (buf bs : List Nat) (pos : Nat)
    (h : pos ≤ buf.length) :
    (writeBytes buf pos bs).take pos = buf.take pos := by
  rw [writeBytes, List.take_append_of_le_length (by simp; omega),
    List.take_append_of_le_length (by simp; omega), List.take_take,
    Nat.min_self]

theorem drop_writeBytes (buf bs : List Nat) (pos : Nat)
    (h : pos + bs.length ≤ buf.length) :
    (writeBytes buf pos bs).drop (pos + bs.length) = buf.drop (pos + bs.length) := by
  have hlen : (buf.take pos ++ bs).length = pos + bs.length := by
    simp
    omega
  calc (buf.take pos ++ bs ++ buf.drop (pos + bs.length)).drop (pos + bs.length)
      = (buf.take pos ++ bs ++ buf.drop (pos + bs.length)).drop
          ((buf.take pos ++ bs).length + 0) := by rw [hlen, Nat.add_zero]
    _ = (buf.drop (pos + bs.length)).drop 0 := List.drop_append 0
    _ = buf.drop (pos + bs.length) := List.drop_zero _

theorem slice_writeBytes (buf bs : List Nat) (pos : Nat)
    (h : pos + bs.length ≤ buf.length) :
    listSlice (writeBytes buf pos bs) pos (pos + bs.length) = bs := by
  have hlen : (buf.take pos ++ bs).length = pos + bs.length := by
    simp
    omega
  have hlen2 : (buf.take pos).length = pos := List.length_take_of_le (by omega)
  rw [listSlice, writeBytes]
  calc ((buf.take pos ++ bs ++ buf.drop (pos + bs.length)).take
          (pos + bs.length)).drop pos
      = ((buf.take pos ++ bs ++ buf.drop (pos + bs.length)).take
          ((buf.take pos ++ bs).length + 0)).drop pos := by
          rw [hlen, Nat.add_zero]
    _ = ((buf.take pos ++ bs) ++ (buf.drop (pos + bs.length)).take 0).drop pos := by
          rw [List.take_append]
    _ = (buf.take pos ++ bs).drop pos := by simp
    _ = (buf.take pos ++ bs).drop ((buf.take pos).length + 0) := by
          rw [hlen2, Nat.add_zero]
    _ = bs.drop 0 := List.drop_append 0
    _ = bs := List.drop_zero _

theorem slice_writeBytes_of_le (buf bs : List Nat) (pos a b : Nat)
    (hb : b ≤ pos) (hp : pos ≤ buf.length) :
    listSlice (writeBytes buf pos bs) a b = listSlice buf a b := by
  rw [listSlice, listSlice, writeBytes,
    List.take_append_of_le_length (by simp; omega),
    List.take_append_of_le_length (by simp; omega), List.take_take,
    Nat.min_eq_left hb]

theorem le32_le32bytes (v : Nat) (h : v < 2 ^ 32) : le32 (le32bytes v) = v := by
  simp [le32, le32bytes, byteAt, List.getD]
  omega

theorem i32ofBits_small (n : Nat) (h : n < 2 ^ 31) : i32ofBits n = n := by
  have h32 : n % 2 ^ 32 = n := Nat.mod_eq_of_lt (by omega)
  rw [i32ofBits, h32, if_pos (by omega)]

/-- A 20-byte header built from raw field values, little-endian, in wire
order: magic, protocol, packet_length, crc32, sender_id, message_type. -/
def mkHeader (m p plen crc sender ty : Nat) : List Nat :=
  le32bytes m ++ le16bytes p ++ le16bytes plen ++ le32bytes crc ++
    le32bytes sender ++ le32bytes ty

/-- The header packet_length of a successful `RequestControllerInfo`
operation result. -/
def pkLenOfRes (r : Res RCIError (List Nat)) : Option Nat :=
  match r with
  | .ok b => some (Header.packet_length b)
  | _ => none

/-- C1: the claim says `MessageRef::parse` never panics and fails with a
size error on short buffers.  The code panics: `buf[0..20]` (src/lib.rs line
804) is an out-of-range slice index for buffers shorter than 20 bytes, and
for a `RequestControllerInfo`-tagged buffer of length 20
`RequestControllerInfo::<Ref>::bytes` (line 433) slices `&self.buf[..28]`
out of range.  Both concrete parses below reach the panic outcome instead of
returning `SliceTooSmall`. -/
theorem parse_panics_on_short_buffers :
    parseR [] zeroHasher = .panic
    ∧ (mkHeader MAGIC_CLIENT 1001 4 0 0 MESSAGE_INFO).length = 20
    ∧ parseR (mkHeader MAGIC_CLIENT 1001 4 0 0 MESSAGE_INFO) zeroHasher
        = .panic := by
  decide

/-- C2: the claim says every message kind round-trips through its
initialize/new entry point.  `ProtocolVersionInfo` cannot even be encoded:
its protocol field is declared over the reversed range `(20 + 0)..2`
(src/lib.rs line 312), so `set_protocol` — called by `initialize` — panics
on the slice index `buf[20..2]`; and `Touch`'s `touch_x`/`touch_y` are
`u8` accessors over two-byte ranges (lines 772-773), so reading or writing a
touch coordinate panics in `try_into().unwrap()` / `copy_from_slice`. -/
theorem round_trip_panics :
    ProtocolVersionInfo.init (List.replicate 22 0) 0 .Version1001
        zeroHasher = .panic
    ∧ Touch.touch_x (List.replicate 6 0) = .panic
    ∧ Touch.touch_y (List.replicate 6 0) = .panic
    ∧ Touch.set_touch_x (List.replicate 6 0) 3 = .panic := by
  decide

/-- C4: the claim says `parse` rejects any buffer whose protocol-version
field differs from 1001 with an unsupported-protocol-version error.
`MessageRef::parse` (src/lib.rs lines 802-871) never reads the protocol
field: the concrete 20-byte buffer below carries protocol 9999 yet parses
successfully (stored crc 0 matches the stub hasher). -/
theorem parse_ignores_protocol_version :
    le16 (listSlice (mkHeader MAGIC_CLIENT 9999 4 0 0 MESSAGE_PROTOCOL) 4 6)
        = 9999
    ∧ (9999 : Nat) ≠ 1001
    ∧ parseR (mkHeader MAGIC_CLIENT 9999 4 0 0 MESSAGE_PROTOCOL) zeroHasher
        = .ok .requestProtocolVersionInfo := by
  decide

/-- C5: the claim says `RequestControllerInfo::initialize` computes the slot
count from the slot list argument.  The code computes it from the buffer's
pre-existing stored count (`let len = self.num_slots()? as u16`, src/lib.rs
line 448) *before* `set_slots` writes the new count: on a zeroed 28-byte
buffer the stored count is 0, so with two requested slots the header
packet_length is written as `24 + 0 - 16 = 8` instead of `24 + 2 - 16 =
10`. -/
theorem initialize_uses_stale_slot_count :
    RCI.num_slots (List.replicate 28 0) = .ok 0
    ∧ pkLenOfRes (RCI.init (List.replicate 28 0) 0 [1, 2] zeroHasher)
        = some 8
    ∧ (8 : Nat) ≠ 24 + 2 - 16 := by
  decide

/-- C7: the encode-side checksum of every fixed-size message.  `update_crc`
(src/lib.rs lines 45-50) writes into bytes `[8..12)` the low 32 bits of the
hash of bytes `[0..8)`, four zero bytes, then bytes `[12..end)`; the bytes
outside `[8..12)` are untouched, and the computed value never depends on the
previously stored checksum bytes `[8..12)` (last conjunct: any two buffers
agreeing outside the checksum field get the same checksum).  All five fixed
message sizes (20, 22, 32, 28, 100) satisfy `12 ≤ length`. -/
theorem update_crc_spec (h : HasherF) (buf : List Nat) (hlen : 12 ≤ buf.length) :
    le32 (listSlice (update_crc h buf) 8 12)
        = h (buf.take 8 ++ [0, 0, 0, 0] ++ buf.drop 12) % 2 ^ 32
    ∧ (update_crc h buf).take 8 = buf.take 8
    ∧ (update_crc h buf).drop 12 = buf.drop 12
    ∧ ∀ buf2 : List Nat, 12 ≤ buf2.length → buf2.take 8 = buf.take 8 →
        buf2.drop 12 = buf.drop 12 →
        listSlice (update_crc h buf2) 8 12 = listSlice (update_crc h buf) 8 12 := by
  have key : ∀ b : List Nat, 12 ≤ b.length → ∀ w : Nat,
      listSlice (writeBytes b 8 (le32bytes w)) 8 12 = le32bytes w := by
    intro b hb w
    exact slice_writeBytes b (le32bytes w) 8 (by simp [le32bytes]; omega)
  refine ⟨?_, ?_, ?_, ?_⟩
  · rw [update_crc, Header.set_crc32, key buf hlen]
    exact le32_le32bytes _ (Nat.mod_lt _ (by norm_num))
  · rw [update_crc, Header.set_crc32]
    exact take_writeBytes _ _ _ (by omega)
  · rw [update_crc, Header.set_crc32]
    exact drop_writeBytes buf
      (le32bytes (h (buf.take 8 ++ [0, 0, 0, 0] ++ buf.drop 12) % 2 ^ 32)) 8
      (by simp [le32bytes]; omega)
  · intro buf2 h2 ht hd
    rw [update_crc, update_crc, Header.set_crc32, Header.set_crc32, ht, hd,
      key buf2 h2, key buf hlen]

/-- C7 witness: the frame part of `update_crc_spec` at the stub hasher and a
concrete 20-byte buffer. -/
theorem update_crc_spec_witness :
    (update_crc zeroHasher (List.replicate 20 5)).take 8
      = (List.replicate 20 5).take 8 :=
  (update_crc_spec zeroHasher (List.replicate 20 5) (by decide)).2.1

/-- C8: the claim says every `initialize` writes packet_length = total size
minus 16, in particular `8 + N` for `RequestControllerInfo` with `N` slots.
`RequestProtocolVersionInfo` does write `20 - 16 = 4`, but
`RequestControllerInfo::initialize` derives the length from the buffer's
stale stored count (src/lib.rs line 448): on a zeroed buffer with three
requested slots it writes `8`, not `24 + 3 - 16 = 11`.  (And
`ProtocolVersionInfo::initialize` panics before returning, see C2.) -/
theorem initialize_packet_length_mismatch :
    Header.packet_length
        (RequestProtocolVersionInfo.init (List.replicate 20 0) 0
          zeroHasher) = 4
    ∧ 20 - 16 = 4
    ∧ pkLenOfRes (RCI.init (List.replicate 28 0) 7 [1, 2, 3] zeroHasher)
        = some 8
    ∧ (8 : Nat) ≠ 24 + 3 - 16 := by
  decide

theorem crc32_of_headerSlice (buf : List Nat) :
    Header.crc32 (listSlice buf 0 20) = le32 (listSlice buf 8 12) := by
  simp only [Header.crc32, listSlice, List.drop_zero, List.take_take]
  norm_num

/-- C3: for every buffer that passes `parse`'s header validation, dispatch
and `bytes()` extraction (`parsePre buf = ok (kind, mb)`, where `mb` is the
selected view's message bytes), the parser recomputes the checksum as the
hash of `mb[0..8)`, four zero bytes, then `mb[12..)`, truncated to 32 bits,
succeeds exactly when it equals the stored crc32 at bytes `[8..12)`, and on
mismatch fails with `InvalidCrc32` carrying the stored (expected) and
calculated values. -/
theorem parse_checksum_iff (buf : List Nat) (h : HasherF) (k : MessageKind)
    (mb : List Nat) (hpre : parsePre buf = .ok (k, mb)) :
    (le32 (listSlice buf 8 12)
        = h (mb.take 8 ++ [0, 0, 0, 0] ++ mb.drop 12) % 2 ^ 32 →
      parseR buf h = .ok k)
    ∧ (le32 (listSlice buf 8 12)
        ≠ h (mb.take 8 ++ [0, 0, 0, 0] ++ mb.drop 12) % 2 ^ 32 →
      parseR buf h = .err (.InvalidCrc32 (le32 (listSlice buf 8 12))
        (h (mb.take 8 ++ [0, 0, 0, 0] ++ mb.drop 12) % 2 ^ 32))) := by
  have hred : parseR buf h =
      if le32 (listSlice buf 8 12)
          ≠ h (mb.take 8 ++ [0, 0, 0, 0] ++ mb.drop 12) % 2 ^ 32 then
        .err (.InvalidCrc32 (le32 (listSlice buf 8 12))
          (h (mb.take 8 ++ [0, 0, 0, 0] ++ mb.drop 12) % 2 ^ 32))
      else .ok k := by
    simp only [parseR, hpre, crc32_of_headerSlice buf]
  constructor
  · intro he
    rw [hred, if_neg (fun hne => hne he)]
  · intro hne
    rw [hred, if_pos hne]

/-- C3 witness: a concrete valid 20-byte `RequestProtocolVersionInfo`
datagram whose stored checksum matches the stub hasher's value. -/
theorem parse_checksum_iff_witness :
    parseR (mkHeader MAGIC_CLIENT 1001 4 0 0 MESSAGE_PROTOCOL) zeroHasher
      = .ok .requestProtocolVersionInfo :=
  (parse_checksum_iff (mkHeader MAGIC_CLIENT 1001 4 0 0 MESSAGE_PROTOCOL)
    zeroHasher .requestProtocolVersionInfo
    (mkHeader MAGIC_CLIENT 1001 4 0 0 MESSAGE_PROTOCOL) (by decide)).1 (by decide)

/-- C6 counterexample: the claim says `num_slots()` fails on a stored count
of 0, but on a 24-byte buffer whose stored signed count is 0 the code
returns `Ok(0)` — the guard at src/lib.rs line 426 is `port < 0 || 4 <
port`, which admits 0. -/
theorem num_slots_accepts_zero :
    i32ofBits (le32 (listSlice (List.replicate 24 0) 20 24)) = 0
    ∧ RCI.num_slots (List.replicate 24 0) = .ok 0 := by
  decide

/-- C6 (amended): `set_slots` rejects slot lists of length 0 and of length
greater than 4 with the invalid-length error echoing the count, and accepts
lengths 1-4 (on a large-enough buffer), after which `num_slots` reads the
written count back; `num_slots` fails with the invalid-length error echoing
the stored signed count exactly when that count is negative or greater
than 4 (a stored 0 is accepted and returned); `slots` returns exactly
`num_slots()` bytes and fails with a size error when the backing buffer is
shorter than `24 + num_slots()`. -/
theorem slot_count_bounds :
    (∀ buf slots : List Nat, slots.length = 0 ∨ 4 < slots.length →
      RCI.set_slots buf slots
        = .err (.InvalidSlotsLength (i32ofBits slots.length)))
    ∧ (∀ buf slots : List Nat, 1 ≤ slots.length → slots.length ≤ 4 →
        24 + slots.length ≤ buf.length →
        ∃ out, RCI.set_slots buf slots = .ok out
          ∧ RCI.num_slots out = .ok slots.length)
    ∧ (∀ buf : List Nat, 24 ≤ buf.length →
        (i32ofBits (le32 (listSlice buf 20 24)) < 0
            ∨ 4 < i32ofBits (le32 (listSlice buf 20 24)) →
          RCI.num_slots buf
            = .err (.InvalidSlotsLength (i32ofBits (le32 (listSlice buf 20 24)))))
        ∧ (0 ≤ i32ofBits (le32 (listSlice buf 20 24)) →
            i32ofBits (le32 (listSlice buf 20 24)) ≤ 4 →
          RCI.num_slots buf
            = .ok (i32ofBits (le32 (listSlice buf 20 24))).toNat))
    ∧ (∀ (buf : List Nat) (n : Nat), RCI.num_slots buf = .ok n →
        (buf.length < 24 + n → RCI.slots buf = .err .SliceTooSmall)
        ∧ (24 + n ≤ buf.length →
            ∃ s, RCI.slots buf = .ok s ∧ s.length = n)) := by
  refine ⟨?_, ?_, ?_, ?_⟩
  · intro buf slots hl
    rw [RCI.set_slots, if_pos (by omega)]
  · intro buf slots h1 h4 hb
    have hinner : 20 + (le32bytes slots.length).length ≤ buf.length := by
      simp [le32bytes]
      omega
    have hlen1 : (writeBytes buf 20 (le32bytes slots.length)).length
        = buf.length := writeBytes_length _ _ _ hinner
    refine ⟨writeBytes (writeBytes buf 20 (le32bytes slots.length)) 24 slots,
      ?_, ?_⟩
    · rw [RCI.set_slots, if_neg (by omega), if_neg (by omega)]
    · have hlen2 :
          (writeBytes (writeBytes buf 20 (le32bytes slots.length)) 24
            slots).length = buf.length := by
        rw [writeBytes_length _ _ _ (by rw [hlen1]; omega), hlen1]
      have hslice :
          listSlice (writeBytes (writeBytes buf 20 (le32bytes slots.length)) 24
            slots) 20 24 = le32bytes slots.length := by
        rw [slice_writeBytes_of_le _ _ _ _ _ (Nat.le_refl 24)
          (by rw [hlen1]; omega)]
        exact slice_writeBytes buf (le32bytes slots.length) 20 hinner
      have hport : i32ofBits (le32 (listSlice
          (writeBytes (writeBytes buf 20 (le32bytes slots.length)) 24 slots)
          20 24)) = (slots.length : Int) := by
        rw [hslice, le32_le32bytes _ (by omega)]
        exact i32ofBits_small _ (by omega)
      simp only [RCI.num_slots, hlen2, hport]
      rw [if_neg (by omega), if_neg (by omega)]
      simp
  · intro buf hb
    constructor
    · intro hout
      simp only [RCI.num_slots]
      rw [if_neg (by omega), if_pos hout]
    · intro h0 h4
      simp only [RCI.num_slots]
      rw [if_neg (by omega), if_neg (by omega)]
  · intro buf n hok
    constructor
    · intro hshort
      simp only [RCI.slots, hok]
      rw [if_pos (by omega)]
    · intro hge
      refine ⟨listSlice buf 24 (24 + n), ?_, ?_⟩
      · simp only [RCI.slots, hok]
        rw [if_neg (by omega)]
      · simp only [listSlice, List.length_drop, List.length_take]
        omega

/-- C6 witness: `set_slots` at an over-long slot list and `num_slots` at a
buffer whose stored count is 5. -/
theorem slot_count_bounds_witness :
    RCI.set_slots (List.replicate 28 0) [1, 2, 3, 4, 5]
      = .err (.InvalidSlotsLength (i32ofBits 5)) :=
  slot_count_bounds.1 (List.replicate 28 0) [1, 2, 3, 4, 5] (by decide)

/-- An 11-byte `ControllerHeader` buffer with byte `b` at offset `i`. -/
def chb (i b : Nat) : List Nat :=
  (List.replicate 11 0).set i b

/-- A 28-byte `RequestControllerData` buffer with byte `b` at offset 20
(the registration field). -/
def rcdb (b : Nat) : List Nat :=
  (List.replicate 28 0).set 20 b

/-- C9: enum closure.  For each enumerated field, any byte outside the
field's code set decodes to the validation error carrying the offending raw
value and that field's name (for every buffer); and every byte in the code
set decodes to its variant, spelt out value by value (battery 0x00-0x05,
0xEE, 0xEF; state 0-2; model 0-3; connection_type 0-2; registration 0-2). -/
theorem enum_closure :
    (∀ buf : List Nat, byteAt buf 1 ∉ ([0, 1, 2] : List Nat) →
      ControllerHeader.state buf = .error ⟨byteAt buf 1, "state"⟩)
    ∧ (∀ buf : List Nat, byteAt buf 2 ∉ ([0, 1, 2, 3] : List Nat) →
      ControllerHeader.model buf = .error ⟨byteAt buf 2, "model"⟩)
    ∧ (∀ buf : List Nat, byteAt buf 3 ∉ ([0, 1, 2] : List Nat) →
      ControllerHeader.connection_type buf
        = .error ⟨byteAt buf 3, "connection_type"⟩)
    ∧ (∀ buf : List Nat,
      byteAt buf 10 ∉ ([0, 1, 2, 3, 4, 5, 0xEE, 0xEF] : List Nat) →
      ControllerHeader.battery_status buf
        = .error ⟨byteAt buf 10, "battery_status"⟩)
    ∧ (∀ buf : List Nat, byteAt buf 20 ∉ ([0, 1, 2] : List Nat) →
      RequestControllerData.registration buf
        = .error ⟨byteAt buf 20, "registration"⟩)
    ∧ (ControllerHeader.state (chb 1 0) = .ok .Disconnected
      ∧ ControllerHeader.state (chb 1 1) = .ok .Reserved
      ∧ ControllerHeader.state (chb 1 2) = .ok .Connected
      ∧ ControllerHeader.model (chb 2 0) = .ok .NotApplicable
      ∧ ControllerHeader.model (chb 2 1) = .ok .PartialGyro
      ∧ ControllerHeader.model (chb 2 2) = .ok .FullGyro
      ∧ ControllerHeader.model (chb 2 3) = .ok .Unused
      ∧ ControllerHeader.connection_type (chb 3 0) = .ok .NotApplicable
      ∧ ControllerHeader.connection_type (chb 3 1) = .ok .Usb
      ∧ ControllerHeader.connection_type (chb 3 2) = .ok .Bluetooth
      ∧ ControllerHeader.battery_status (chb 10 0x00) = .ok .NotApplicable
      ∧ ControllerHeader.battery_status (chb 10 0x01) = .ok .Dying
      ∧ ControllerHeader.battery_status (chb 10 0x02) = .ok .Low
      ∧ ControllerHeader.battery_status (chb 10 0x03) = .ok .Medium
      ∧ ControllerHeader.battery_status (chb 10 0x04) = .ok .High
      ∧ ControllerHeader.battery_status (chb 10 0x05) = .ok .Full
      ∧ ControllerHeader.battery_status (chb 10 0xEE) = .ok .Charging
      ∧ ControllerHeader.battery_status (chb 10 0xEF) = .ok .Charged
      ∧ RequestControllerData.registration (rcdb 0) = .ok .AllControllers
      ∧ RequestControllerData.registration (rcdb 1) = .ok .SlotBased
      ∧ RequestControllerData.registration (rcdb 2) = .ok .MacBased) := by
  refine ⟨?_, ?_, ?_, ?_, ?_,
    ⟨rfl, rfl, rfl, rfl, rfl, rfl, rfl, rfl, rfl, rfl, rfl, rfl, rfl, rfl,
      rfl, rfl, rfl, rfl, rfl, rfl, rfl⟩⟩
  · intro buf hmem
    simp only [List.mem_cons, List.not_mem_nil, or_false, not_or] at hmem
    obtain ⟨h0, h1, h2⟩ := hmem
    simp [ControllerHeader.state, h0, h1, h2]
  · intro buf hmem
    simp only [List.mem_cons, List.not_mem_nil, or_false, not_or] at hmem
    obtain ⟨h0, h1, h2, h3⟩ := hmem
    simp [ControllerHeader.model, h0, h1, h2, h3]
  · intro buf hmem
    simp only [List.mem_cons, List.not_mem_nil, or_false, not_or] at hmem
    obtain ⟨h0, h1, h2⟩ := hmem
    simp [ControllerHeader.connection_type, h0, h1, h2]
  · intro buf hmem
    simp only [List.mem_cons, List.not_mem_nil, or_false, not_or] at hmem
    obtain ⟨h0, h1, h2, h3, h4, h5, hEE, hEF⟩ := hmem
    simp [ControllerHeader.battery_status, h0, h1, h2, h3, h4, h5, hEE, hEF]
  · intro buf hmem
    simp only [List.mem_cons, List.not_mem_nil, or_false, not_or] at hmem
    obtain ⟨h0, h1, h2⟩ := hmem
    simp [RequestControllerData.registration, h0, h1, h2]

/-- C9 witness: the battery_status closure part at the out-of-set byte 7. -/
theorem enum_closure_witness :
    ControllerHeader.battery_status (chb 10 7) = .error ⟨7, "battery_status"⟩ :=
  enum_closure.2.2.2.1 (chb 10 7) (by decide)

/-- C10: decoding is read-only.  `MessageMut::parse_mut` performs only reads
(header getters, `bytes()`, `crc32()`); in the buffer-threaded embedding the
buffer returned alongside the result — on success, on every error, and on
the panic paths — is the input buffer, byte for byte. -/
theorem parse_mut_readonly (buf : List Nat) (h : HasherF) :
    (parseMut buf h).2 = buf := by
  unfold parseMut
  repeat' split
  all_goals (first | rfl | (dsimp only; split <;> rfl))
